import Mathlib

/-!
Shallow embedding of the HTTP client core of the
terraform-provider-ciscosecureconnect repository (src/client.go):
the retrying request executor `doRequestWithRetry`, the domain operations
`CreateSecureConnectSite`, `DeleteSecureConnectSites` and the paginated
`GetSecureConnectSites`, together with the Go string / JSON-decoding
primitives they rely on.

Modelling conventions:
- Go `int` is modelled as `Int`; Go `string` as Lean `String`
  (the test inputs are ASCII, so byte indexing and rune indexing agree).
- `json.Unmarshal` targets are modelled by explicit decoders over a `Json`
  value type; a response body is either a parsed `Json` value plus its raw
  text, or raw text that is not valid JSON (on which every decode fails).
- The HTTP transport is modelled as a function from attempt index to the
  outcome of `httpClient.Do`; the paginated server as a function from URL
  to the observable outcome of one fetch.
- Backoff sleeping and context cancellation are timing behaviour and are
  not modelled; no claim below depends on them.
- The pagination loop is given explicit fuel; `none` means the fuel ran
  out before the loop terminated.
- Go string functions are re-implemented by structural recursion on the
  character list so that concrete runs reduce inside the kernel.
-/

set_option maxRecDepth 100000

/-- JSON values, as produced by Go's `encoding/json` parser
(numbers restricted to integers; no claim involves fractional numbers). -/
inductive Json where
  | null : Json
  | bool (b : Bool) : Json
  | num (n : Int) : Json
  | str (s : String) : Json
  | arr (xs : List Json) : Json
  | obj (fields : List (String × Json)) : Json

/-- A site record: Go's `map[string]interface{}`, modelled as an
association list of fields. -/
abbrev Record := List (String × Json)

/-- A response body as read by `io.ReadAll`: either raw text that parses
as a JSON value, or raw text that is not valid JSON. -/
inductive Body where
  | json (raw : String) (j : Json) : Body
  | malformed (raw : String) : Body

/-- The raw byte content of the body (used in error messages). -/
def Body.raw : Body → String
  | .json r _ => r
  | .malformed r => r

/-- `json.Unmarshal` of one array element into `map[string]interface{}`:
succeeds on a JSON object (the field map) and on `null` (nil map). -/
def decodeRecord : Json → Option Record
  | .null => some []
  | .obj fs => some fs
  | _ => none

/-- Decode every element of an array as a record; any failing element
fails the whole unmarshal. -/
def decodeRecords : List Json → Option (List Record)
  | [] => some []
  | x :: xs =>
    match decodeRecord x, decodeRecords xs with
    | some r, some rs => some (r :: rs)
    | _, _ => none

/-- `json.Unmarshal` into `[]map[string]interface{}`: succeeds on `null`
(nil slice) or on an array whose every element decodes as a record. -/
def decodeRecordList : Json → Option (List Record)
  | .null => some []
  | .arr xs => decodeRecords xs
  | _ => none

/-- Lowercase a string character-wise (ASCII-faithful model of the
case-insensitive field-name match of `encoding/json`). -/
def lowerStr (s : String) : String := String.mk (s.data.map Char.toLower)

/-- Scan the keys of a JSON object in order for ones matching the struct
field with tag `data` (Go matches field names case-insensitively, later
keys overriding earlier ones); a matching key whose value does not decode
as a record list makes the whole unmarshal fail. -/
def findDataField : List (String × Json) → Option (List Record) → Option (Option (List Record))
  | [], acc => some acc
  | (k, v) :: rest, acc =>
    if lowerStr k = "data" then
      match decodeRecordList v with
      | none => none
      | some rs => findDataField rest (some rs)
    else findDataField rest acc

/-- `json.Unmarshal` into `struct { Data []map[string]interface{} }`:
succeeds on `null` or a JSON object; a missing `data` key leaves the
field nil (empty list of records). -/
def decodeWrapped : Body → Option (List Record)
  | .json _ .null => some []
  | .json _ (.obj fs) =>
    match findDataField fs none with
    | none => none
    | some none => some []
    | some (some rs) => some rs
  | _ => none

/-- `json.Unmarshal` into a bare `[]map[string]interface{}`. -/
def decodeDirect : Body → Option (List Record)
  | .json _ j => decodeRecordList j
  | .malformed _ => none

/-- The two-shape tolerant parse of a list page: first the wrapped
`{"data": [...]}` format, then the bare array, as in the source. -/
def pageDecode (body : Body) : Option (List Record) :=
  match decodeWrapped body with
  | some cs => some cs
  | none => decodeDirect body

/-- Split a character list at every comma (Go `strings.Split(s, ",")`;
the source only ever splits on a comma). -/
def splitComma : List Char → List Char → List (List Char)
  | [], acc => [acc.reverse]
  | c :: rest, acc =>
    if c = ',' then acc.reverse :: splitComma rest []
    else splitComma rest (c :: acc)

/-- Go `strings.Split(s, ",")`. -/
def goSplitComma (s : String) : List String :=
  (splitComma s.data []).map String.mk

/-- Substring occurrence on character lists (Go `strings.Contains`). -/
def containsSeq (sub : List Char) : List Char → Bool
  | [] => sub.isEmpty
  | c :: rest => sub.isPrefixOf (c :: rest) || containsSeq sub rest

/-- Go `strings.Contains`. -/
def goContains (s sub : String) : Bool := containsSeq sub.data s.data

/-- Helper for `goIndex`: position (at offset `i`) of the first occurrence
of `sub`, else `-1`. -/
def goIndexFrom (sub : List Char) : List Char → Nat → Int
  | [], i => if sub.isEmpty then (i : Int) else -1
  | c :: rest, i =>
    if sub.isPrefixOf (c :: rest) then (i : Int) else goIndexFrom sub rest (i + 1)

/-- Go `strings.Index`: index of the first occurrence of `sub` in `s`,
or `-1` when absent. -/
def goIndex (s sub : String) : Int := goIndexFrom sub.data s.data 0

/-- Go slice `s[a:b]` on the character (byte, for ASCII) level. -/
def goSlice (s : String) (a b : Int) : String :=
  String.mk ((s.data.drop a.toNat).take (b - a).toNat)

/-- Go `strings.TrimSpace` (ASCII whitespace). -/
def goTrim (s : String) : String :=
  String.mk (((s.data.dropWhile Char.isWhitespace).reverse.dropWhile Char.isWhitespace).reverse)

/-- The Link-header scan of `GetSecureConnectSites`: walk the
comma-separated directives, trim each, and on the first directive that
contains `rel="next"` or `rel=next` and carries a well-formed `<url>`
part, return that url; otherwise keep scanning; no match yields `""`. -/
def findNextURL : List String → String
  | [] => ""
  | l :: rest =>
    let t := goTrim l
    if goContains t "rel=\"next\"" || goContains t "rel=next" then
      let start := goIndex t "<"
      let stop := goIndex t ">"
      if start ≠ -1 ∧ stop ≠ -1 ∧ stop > start then
        goSlice t (start + 1) stop
      else findNextURL rest
    else findNextURL rest

/-- An `*http.Response` as far as the client inspects it: numeric status
code, the status text line (`resp.Status`), and whether `Body.Close()` has
already been called on it. -/
structure HttpResponse where
  statusCode : Int
  status : String
  bodyClosed : Bool
deriving DecidableEq

/-- `resp.Body.Close()`. -/
def closeBody (r : HttpResponse) : HttpResponse := { r with bodyClosed := true }

/-- The pair `(*http.Response, error)` returned by `doRequestWithRetry`:
either `(nil, err)`, `(resp, nil)`, or — when the loop body never runs —
`(nil, nil)`. -/
inductive RetryOutcome where
  | netError (e : String) : RetryOutcome
  | response (r : HttpResponse) : RetryOutcome
  | nilNil : RetryOutcome
deriving DecidableEq

/-- The client configuration (`MerakiClient`): credential, base address
and retry budget; the transport itself is passed to the operations as a
function. -/
structure MerakiClient where
  apiKey : String
  baseURL : String
  maxRetries : Int

/-- `NewClient`: default retry count 3. -/
def NewClient (apiKey baseURL : String) : MerakiClient :=
  { apiKey := apiKey, baseURL := baseURL, maxRetries := 3 }

/-- `SetMaxRetries`: stores the given count unconditionally. -/
def SetMaxRetries (c : MerakiClient) (maxRetries : Int) : MerakiClient :=
  { c with maxRetries := maxRetries }

/-- The retry loop body of `doRequestWithRetry`: `attempt` is the current
value of the loop counter, `fuel` the number of loop iterations still
allowed by `attempt <= c.maxRetries`, `last` the (already closed) response
kept from the previous iteration.  Returns the Go result pair together
with the total number of attempts performed. -/
def retryGo (transport : Nat → Except String HttpResponse) :
    Nat → Nat → Option HttpResponse → RetryOutcome × Nat
  | attempt, 0, last =>
    (match last with
     | some r => .response r
     | none => .nilNil, attempt)
  | attempt, fuel + 1, _ =>
    match transport attempt with
    | .error e => (.netError e, attempt + 1)
    | .ok r =>
      if r.statusCode < 300 then (.response r, attempt + 1)
      else if 400 ≤ r.statusCode ∧ r.statusCode < 500 ∧ r.statusCode ≠ 429 then
        (.response r, attempt + 1)
      else retryGo transport (attempt + 1) fuel (some (closeBody r))

/-- Number of iterations of `for attempt := 0; attempt <= c.maxRetries;
attempt++`: zero when the budget is negative. -/
def iterationCount (maxRetries : Int) : Nat :=
  if maxRetries < 0 then 0 else maxRetries.toNat + 1

/-- `doRequestWithRetry`, with the attempt count as instrumentation. -/
def doRequestWithRetry (c : MerakiClient) (transport : Nat → Except String HttpResponse) :
    RetryOutcome × Nat :=
  retryGo transport 0 (iterationCount c.maxRetries) none

/-- A status is retried when it is neither a success (`< 300`) nor a
non-429 client error (`4xx` other than 429). -/
def retriableStatus (r : HttpResponse) : Prop :=
  ¬ r.statusCode < 300 ∧ ¬ (400 ≤ r.statusCode ∧ r.statusCode < 500 ∧ r.statusCode ≠ 429)

instance (r : HttpResponse) : Decidable (retriableStatus r) := by
  unfold retriableStatus; infer_instance

/-- The enrollment object built by `CreateSecureConnectSite`: `siteId` and
`regionType` always, `regionId` / `regionName` only when non-empty.  (Go
marshals the map with sorted keys; only the field set is modelled.) -/
def createEnrollment (siteID regionType regionID regionName : String) : List (String × Json) :=
  let e0 := [("siteId", Json.str siteID), ("regionType", Json.str regionType)]
  let e1 := if regionID ≠ "" then e0 ++ [("regionId", Json.str regionID)] else e0
  if regionName ≠ "" then e1 ++ [("regionName", Json.str regionName)] else e1

/-- The POST body `{"enrollments": [enrollment]}`. -/
def createRequestBody (siteID regionType regionID regionName : String) : Json :=
  Json.obj [("enrollments",
    Json.arr [Json.obj (createEnrollment siteID regionType regionID regionName)])]

/-- The DELETE body `{"sites": [siteID]}`. -/
def deleteRequestBody (siteID : String) : Json :=
  Json.obj [("sites", Json.arr [Json.str siteID])]

/-- Outcome of a create/delete call: success, a returned error, or a nil
dereference (`defer resp.Body.Close()` on a nil response). -/
inductive OpResult where
  | ok : OpResult
  | err (e : String) : OpResult
  | nilDeref : OpResult
deriving DecidableEq

/-- `CreateSecureConnectSite` after the request has been built: delegate
to the retrying executor and turn any final status `>= 300` into a domain
error embedding the HTTP status text. -/
def CreateSecureConnectSite (c : MerakiClient)
    (transport : Nat → Except String HttpResponse) : OpResult :=
  match (doRequestWithRetry c transport).1 with
  | .netError e => .err e
  | .nilNil => .nilDeref
  | .response r =>
    if r.statusCode ≥ 300 then .err ("create failed: " ++ r.status) else .ok

/-- `DeleteSecureConnectSites`, same shape with the `delete failed:`
message. -/
def DeleteSecureConnectSites (c : MerakiClient)
    (transport : Nat → Except String HttpResponse) : OpResult :=
  match (doRequestWithRetry c transport).1 with
  | .netError e => .err e
  | .nilNil => .nilDeref
  | .response r =>
    if r.statusCode ≥ 300 then .err ("delete failed: " ++ r.status) else .ok

/-- What one iteration of the list loop observes for a given URL:
`http.NewRequestWithContext` failing, `doRequestWithRetry` failing,
`io.ReadAll` failing, or a final response with status code, body and the
value of the `Link` header (`""` when absent, as `Header.Get` returns). -/
inductive FetchOutcome where
  | reqError (e : String) : FetchOutcome
  | sendError (e : String) : FetchOutcome
  | readError (e : String) : FetchOutcome
  | resp (status : Int) (body : Body) (link : String) : FetchOutcome

/-- The Go pair `([]map[string]interface{}, error)` returned by
`GetSecureConnectSites`. -/
structure GoListResult where
  sites : Option (List Record)
  error : Option String

/-- The pagination loop of `GetSecureConnectSites`.  `fuel` bounds the
number of iterations (`none` = fuel exhausted); the returned `List String`
is the trace of URLs for which a GET request was actually issued. -/
def getSitesLoop (server : String → FetchOutcome) :
    Nat → String → List Record → Option (GoListResult × List String)
  | 0, _, _ => none
  | fuel + 1, url, allSites =>
    match server url with
    | .reqError e => some (⟨none, some ("creating request: " ++ e)⟩, [])
    | .sendError e => some (⟨none, some ("sending request: " ++ e)⟩, [url])
    | .readError e => some (⟨none, some ("reading response: " ++ e)⟩, [url])
    | .resp status body link =>
      if status ≠ 200 then
        some (⟨none, some ("bad response (" ++ toString status ++ "): " ++ body.raw)⟩, [url])
      else
        match pageDecode body with
        | none =>
          some (⟨none, some "response doesn't match expected formats (wrapped or direct array)"⟩,
            [url])
        | some currentSites =>
          let all := allSites ++ currentSites
          if link = "" then some (⟨some all, none⟩, [url])
          else
            let nextURL := findNextURL (goSplitComma link)
            if nextURL = "" then some (⟨some all, none⟩, [url])
            else if currentSites.length < 1000 then some (⟨some all, none⟩, [url])
            else
              match getSitesLoop server fuel nextURL all with
              | none => none
              | some (res, trace) => some (res, url :: trace)

/-- `GetSecureConnectSites`: start at the collection URL with
`perPage=1000` and walk the pages. -/
def GetSecureConnectSites (server : String → FetchOutcome) (fuel : Nat)
    (c : MerakiClient) (orgID : String) : Option (GoListResult × List String) :=
  getSitesLoop server fuel
    (c.baseURL ++ "/organizations/" ++ orgID ++ "/secureConnect/sites?perPage=1000") []

/-- `n` consecutive synthetic page items with ids `start, start+1, …`, as
JSON objects. -/
def mkItems (start n : Nat) : List Json :=
  (List.range' start n).map (fun (i : Nat) => Json.obj [("id", Json.num (i : Int))])

/-- The same items as decoded records. -/
def mkRecords (start n : Nat) : List Record :=
  (List.range' start n).map (fun (i : Nat) => [("id", Json.num (i : Int))])

/-- A wrapped-format page body `{"data": [...]}`. -/
def wrapData (items : List Json) : Body :=
  Body.json "page" (Json.obj [("data", Json.arr items)])

def page1URL : String :=
  "https://api.example.com/organizations/org1/secureConnect/sites?perPage=1000"

def page2URL : String := "https://api.example.com/page2"

def page3URL : String := "https://api.example.com/page3"

/-- A server with three pages of 1000, 1000 and 400 records; pages 1 and 2
carry a `Link` header with `rel="next"`, page 3 carries none. -/
def threePageServer : String → FetchOutcome := fun url =>
  if url = page1URL then
    .resp 200 (wrapData (mkItems 0 1000)) ("<" ++ page2URL ++ ">; rel=\"next\"")
  else if url = page2URL then
    .resp 200 (wrapData (mkItems 1000 1000)) ("<" ++ page3URL ++ ">; rel=\"next\"")
  else if url = page3URL then
    .resp 200 (wrapData (mkItems 2000 400)) ""
  else
    .resp 404 (Body.malformed "not found") ""

/-- A fresh (unclosed) response with the given code and status line. -/
def freshResponse (code : Int) (statusText : String) : HttpResponse :=
  { statusCode := code, status := statusText, bodyClosed := false }

/-- A transport answering 503 to the first two attempts and 200 after. -/
def transport503x2 : Nat → Except String HttpResponse := fun i =>
  .ok (if i < 2 then freshResponse 503 "503 Service Unavailable"
       else freshResponse 200 "200 OK")

/-- A transport answering 429 to every attempt. -/
def transport429 : Nat → Except String HttpResponse := fun _ =>
  .ok (freshResponse 429 "429 Too Many Requests")

/-- A transport answering 503 to every attempt. -/
def transport503 : Nat → Except String HttpResponse := fun _ =>
  .ok (freshResponse 503 "503 Service Unavailable")

/-- A transport answering 404 to every attempt. -/
def transport404 : Nat → Except String HttpResponse := fun _ =>
  .ok (freshResponse 404 "404 Not Found")

/-- A server whose body is valid JSON but matches neither list shape. -/
def boolBodyServer : String → FetchOutcome := fun _ =>
  .resp 200 (Body.json "true" (Json.bool true)) ""

/-- A server answering 404 with a plain-text body. -/
def nf404Server : String → FetchOutcome := fun _ =>
  .resp 404 (Body.malformed "nf") ""

/-- A server serving a first page of exactly 1000 records with a `next`
link, then a second page of 1000 records with no Link header. -/
def split2Server : String → FetchOutcome := fun url =>
  if url = "https://s/1" then
    .resp 200 (wrapData (mkItems 0 1000)) "<https://s/2>; rel=\"next\""
  else
    .resp 200 (wrapData (mkItems 1000 1000)) ""

/-! ### Helper lemmas -/

theorem decodeRecords_idObjs (l : List Nat) :
    decodeRecords (l.map (fun (i : Nat) => Json.obj [("id", Json.num (i : Int))])) =
      some (l.map (fun (i : Nat) => [("id", Json.num (i : Int))])) := by
  induction l with
  | nil => rfl
  | cons a l ih => simp [decodeRecords, decodeRecord, ih]

theorem pageDecode_wrapData (start n : Nat) :
    pageDecode (wrapData (mkItems start n)) = some (mkRecords start n) := by
  have h : lowerStr "data" = "data" := rfl
  simp [pageDecode, decodeWrapped, wrapData, findDataField, h, decodeRecordList,
    mkItems, mkRecords, decodeRecords_idObjs]

theorem mkRecords_length (start n : Nat) : (mkRecords start n).length = n := by
  simp [mkRecords, List.length_range']

theorem mkRecords_append (s m n : Nat) :
    mkRecords s m ++ mkRecords (s + m) n = mkRecords s (m + n) := by
  unfold mkRecords
  rw [← List.map_append]
  have h := List.range'_append s m n 1
  simp only [one_mul] at h
  rw [h, Nat.add_comm n m]

theorem getSitesLoop_continue (server : String → FetchOutcome) (fuel : Nat) (url : String)
    (acc cs : List Record) (body : Body) (link : String)
    (hresp : server url = .resp 200 body link)
    (hdec : pageDecode body = some cs)
    (hlink : link ≠ "")
    (hnext : findNextURL (goSplitComma link) ≠ "")
    (hlen : ¬ cs.length < 1000) :
    getSitesLoop server (fuel + 1) url acc =
      (match getSitesLoop server fuel (findNextURL (goSplitComma link)) (acc ++ cs) with
       | none => none
       | some (res, trace) => some (res, url :: trace)) := by
  simp [getSitesLoop, hresp, hdec, hlink, hnext, hlen]

theorem getSitesLoop_stop (server : String → FetchOutcome) (fuel : Nat) (url : String)
    (acc cs : List Record) (body : Body) (link : String)
    (hresp : server url = .resp 200 body link)
    (hdec : pageDecode body = some cs)
    (hstop : link = "" ∨ findNextURL (goSplitComma link) = "" ∨ cs.length < 1000) :
    getSitesLoop server (fuel + 1) url acc = some (⟨some (acc ++ cs), none⟩, [url]) := by
  rcases hstop with h | h | h
  · simp [getSitesLoop, hresp, hdec, h]
  · by_cases hl : link = ""
    · simp [getSitesLoop, hresp, hdec, hl]
    · simp [getSitesLoop, hresp, hdec, hl, h]
  · by_cases hl : link = ""
    · simp [getSitesLoop, hresp, hdec, hl]
    · by_cases hn : findNextURL (goSplitComma link) = ""
      · simp [getSitesLoop, hresp, hdec, hl, hn]
      · simp [getSitesLoop, hresp, hdec, hl, hn, h]

/-- C3: against a server with pages of 1000, 1000 and 400 records, where
pages 1 and 2 carry a `Link` header with `rel="next"` and page 3 carries
none, the list operation returns the 2400 records concatenated in page
order, with no error, and issues exactly the three GET requests. -/
theorem list_three_pages :
    GetSecureConnectSites threePageServer 10 (NewClient "k" "https://api.example.com") "org1" =
      some (⟨some (mkRecords 0 2400), none⟩, [page1URL, page2URL, page3URL]) ∧
    (mkRecords 0 2400).length = 2400 := by
  refine ⟨?_, mkRecords_length 0 2400⟩
  have e1 : threePageServer page1URL =
      .resp 200 (wrapData (mkItems 0 1000)) ("<" ++ page2URL ++ ">; rel=\"next\"") := by rfl
  have e2 : threePageServer page2URL =
      .resp 200 (wrapData (mkItems 1000 1000)) ("<" ++ page3URL ++ ">; rel=\"next\"") := by rfl
  have e3 : threePageServer page3URL = .resp 200 (wrapData (mkItems 2000 400)) "" := by rfl
  have n1 : findNextURL (goSplitComma ("<" ++ page2URL ++ ">; rel=\"next\"")) = page2URL := by
    decide
  have n2 : findNextURL (goSplitComma ("<" ++ page3URL ++ ">; rel=\"next\"")) = page3URL := by
    decide
  have len1000 : ∀ s, ¬ (mkRecords s 1000).length < 1000 := by
    intro s; simp [mkRecords_length]
  have a1 : mkRecords 0 1000 ++ mkRecords 1000 1000 = mkRecords 0 2000 := by
    simpa using mkRecords_append 0 1000 1000
  have a2 : mkRecords 0 2000 ++ mkRecords 2000 400 = mkRecords 0 2400 := by
    simpa using mkRecords_append 0 2000 400
  show getSitesLoop threePageServer 10 page1URL [] = _
  rw [show (10 : Nat) = 9 + 1 from rfl,
    getSitesLoop_continue threePageServer 9 page1URL [] (mkRecords 0 1000) _ _ e1
      (pageDecode_wrapData 0 1000) (by decide) (by rw [n1]; decide) (len1000 0), n1]
  rw [show (9 : Nat) = 8 + 1 from rfl, List.nil_append,
    getSitesLoop_continue threePageServer 8 page2URL (mkRecords 0 1000) (mkRecords 1000 1000)
      _ _ e2 (pageDecode_wrapData 1000 1000) (by decide) (by rw [n2]; decide) (len1000 1000), n2]
  rw [show (8 : Nat) = 7 + 1 from rfl, a1,
    getSitesLoop_stop threePageServer 7 page3URL (mkRecords 0 2000) (mkRecords 2000 400)
      _ _ e3 (pageDecode_wrapData 2000 400) (Or.inl rfl), a2]

theorem retryGo_reach_success (transport : Nat → Except String HttpResponse) :
    ∀ (N start fuel : Nat) (last : Option HttpResponse) (r : HttpResponse),
    (∀ i, i < N → ∃ rr, transport (start + i) = .ok rr ∧ retriableStatus rr) →
    transport (start + N) = .ok r → r.statusCode < 300 → N < fuel →
    retryGo transport start fuel last = (.response r, start + N + 1) := by
  intro N
  induction N with
  | zero =>
    intro start fuel last r _ hok hlt hfuel
    obtain ⟨f, rfl⟩ : ∃ f, fuel = f + 1 := ⟨fuel - 1, by omega⟩
    rw [Nat.add_zero] at hok
    simp [retryGo, hok, hlt]
  | succ n ih =>
    intro start fuel last r hret hok hlt hfuel
    obtain ⟨f, rfl⟩ : ∃ f, fuel = f + 1 := ⟨fuel - 1, by omega⟩
    obtain ⟨r0, h0, hr0⟩ := hret 0 (Nat.succ_pos n)
    rw [Nat.add_zero] at h0
    have step : retryGo transport start (f + 1) last
        = retryGo transport (start + 1) f (some (closeBody r0)) := by
      simp [retryGo, h0, hr0.1, hr0.2]
    have hret' : ∀ i, i < n → ∃ rr, transport (start + 1 + i) = .ok rr ∧ retriableStatus rr := by
      intro i hi
      have h := hret (i + 1) (by omega)
      rwa [show start + (i + 1) = start + 1 + i by omega] at h
    have hok' : transport (start + 1 + n) = .ok r := by
      rwa [show start + 1 + n = start + (n + 1) by omega]
    have hrec := ih (start + 1) f (some (closeBody r0)) r hret' hok' hlt (by omega)
    rw [step, hrec, show start + 1 + n + 1 = start + (n + 1) + 1 by omega]

theorem retryGo_exhaust (transport : Nat → Except String HttpResponse)
    (hret : ∀ i, ∃ rr, transport i = .ok rr ∧ retriableStatus rr) :
    ∀ (f start : Nat) (last : Option HttpResponse),
    ∃ r, transport (start + f) = .ok r ∧
      retryGo transport start (f + 1) last = (.response (closeBody r), start + f + 1) := by
  intro f
  induction f with
  | zero =>
    intro start last
    obtain ⟨r, hok, hr⟩ := hret start
    refine ⟨r, by simpa using hok, ?_⟩
    have step : retryGo transport start 1 last
        = retryGo transport (start + 1) 0 (some (closeBody r)) := by
      simp [retryGo, hok, hr.1, hr.2]
    rw [step]
    simp [retryGo]
  | succ n ih =>
    intro start last
    obtain ⟨r0, h0, hr0⟩ := hret start
    obtain ⟨r, hok, hrec⟩ := ih (start + 1) (some (closeBody r0))
    refine ⟨r, by rwa [show start + 1 + n = start + (n + 1) by omega] at hok, ?_⟩
    have step : retryGo transport start (n + 1 + 1) last
        = retryGo transport (start + 1) (n + 1) (some (closeBody r0)) := by
      simp [retryGo, h0, hr0.1, hr0.2]
    rw [step, hrec, show start + 1 + n + 1 = start + (n + 1) + 1 by omega]

/-! ### Claims about the retrying executor -/

/-- C2: for every configured retry count `N ≥ 0` and every transport that
answers status 503 to the first `N` attempts and status 200 to attempt
`N`, `doRequestWithRetry` returns the 200 response with a nil error,
having made exactly `N + 1` attempts (`N` retries) and no more. -/
theorem retry_503_then_200 (c : MerakiClient) (transport : Nat → Except String HttpResponse)
    (N : Nat) (hmr : c.maxRetries = (N : Int))
    (h503 : ∀ i, i < N → ∃ r, transport i = .ok r ∧ r.statusCode = 503)
    (h200 : ∃ r, transport N = .ok r ∧ r.statusCode = 200) :
    ∃ r, transport N = .ok r ∧ r.statusCode = 200 ∧
      doRequestWithRetry c transport = (.response r, N + 1) := by
  obtain ⟨r, hok, hs⟩ := h200
  refine ⟨r, hok, hs, ?_⟩
  have hfuel : iterationCount c.maxRetries = N + 1 := by
    unfold iterationCount
    rw [hmr, if_neg (by omega)]
    simp
  unfold doRequestWithRetry
  rw [hfuel]
  have h := retryGo_reach_success transport N 0 (N + 1) none r
    (fun i hi => by
      obtain ⟨rr, hrr, hrs⟩ := h503 i hi
      exact ⟨rr, by simpa using hrr, by unfold retriableStatus; omega⟩)
    (by simpa using hok) (by omega) (by omega)
  simpa using h

/-- Witness for C2 at `N = 2`. -/
theorem retry_503_then_200_witness :
    ∃ r, transport503x2 2 = .ok r ∧ r.statusCode = 200 ∧
      doRequestWithRetry (SetMaxRetries (NewClient "k" "https://u") 2) transport503x2 =
        (.response r, 2 + 1) :=
  retry_503_then_200 _ _ 2 rfl
    (fun i hi => ⟨freshResponse 503 "503 Service Unavailable",
      by simp [transport503x2, hi], rfl⟩)
    ⟨freshResponse 200 "200 OK", by simp [transport503x2], rfl⟩

/-- C4: for every transport answering status 429 to every attempt and a
non-negative retry budget, the executor returns — after exactly
`maxRetries + 1` attempts — the last-received 429 response paired with a
nil error (a response, not an error). -/
theorem retry_429_exhausts (c : MerakiClient) (transport : Nat → Except String HttpResponse)
    (hmr : 0 ≤ c.maxRetries)
    (h429 : ∀ i, ∃ r, transport i = .ok r ∧ r.statusCode = 429) :
    ∃ r, doRequestWithRetry c transport = (.response r, c.maxRetries.toNat + 1) ∧
      r.statusCode = 429 := by
  have hret : ∀ i, ∃ rr, transport i = .ok rr ∧ retriableStatus rr := by
    intro i
    obtain ⟨r, hok, hs⟩ := h429 i
    exact ⟨r, hok, by unfold retriableStatus; omega⟩
  obtain ⟨r, hok, hrec⟩ := retryGo_exhaust transport hret c.maxRetries.toNat 0 none
  have hfuel : iterationCount c.maxRetries = c.maxRetries.toNat + 1 := by
    unfold iterationCount
    rw [if_neg (by omega)]
  refine ⟨closeBody r, ?_, ?_⟩
  · unfold doRequestWithRetry
    rw [hfuel]
    simpa using hrec
  · obtain ⟨r', hok', hs'⟩ := h429 (0 + c.maxRetries.toNat)
    rw [hok] at hok'
    injection hok' with h
    simp only [closeBody]
    rw [h]
    exact hs'

/-- Witness for C4 with the default budget of 3 retries. -/
theorem retry_429_exhausts_witness :
    ∃ r, doRequestWithRetry (NewClient "k" "https://u") transport429 = (.response r, 4) ∧
      r.statusCode = 429 :=
  retry_429_exhausts _ _ (by decide)
    (fun _ => ⟨freshResponse 429 "429 Too Many Requests", rfl, rfl⟩)

/-- C8: after `SetMaxRetries` with a negative count — which the client
stores unchecked — the executor performs zero attempts and returns a nil
response together with a nil error. -/
theorem retry_negative_budget (c : MerakiClient) (transport : Nat → Except String HttpResponse)
    (m : Int) (hm : m < 0) :
    (SetMaxRetries c m).maxRetries = m ∧
    doRequestWithRetry (SetMaxRetries c m) transport = (.nilNil, 0) := by
  refine ⟨rfl, ?_⟩
  have hz : iterationCount (SetMaxRetries c m).maxRetries = 0 := by
    show iterationCount m = 0
    unfold iterationCount
    rw [if_pos hm]
  unfold doRequestWithRetry
  rw [hz]
  rfl

/-- Witness for C8 at budget `-1`. -/
theorem retry_negative_budget_witness :
    (SetMaxRetries (NewClient "k" "https://u") (-1)).maxRetries = -1 ∧
    doRequestWithRetry (SetMaxRetries (NewClient "k" "https://u") (-1)) transport429 =
      (.nilNil, 0) :=
  retry_negative_budget _ _ (-1) (by decide)

/-- C10: when every attempt draws a retriable-status response and the
budget is exhausted, the response the executor hands back has already had
its body closed by the end-of-loop release. -/
theorem retry_exhaust_body_closed (c : MerakiClient)
    (transport : Nat → Except String HttpResponse)
    (hmr : 0 ≤ c.maxRetries)
    (hret : ∀ i, ∃ r, transport i = .ok r ∧ retriableStatus r) :
    ∃ r, (doRequestWithRetry c transport).1 = .response r ∧ r.bodyClosed = true := by
  obtain ⟨r, hok, hrec⟩ := retryGo_exhaust transport hret c.maxRetries.toNat 0 none
  have hfuel : iterationCount c.maxRetries = c.maxRetries.toNat + 1 := by
    unfold iterationCount
    rw [if_neg (by omega)]
  refine ⟨closeBody r, ?_, rfl⟩
  unfold doRequestWithRetry
  rw [hfuel, hrec]

/-- Witness for C10 with an always-503 transport. -/
theorem retry_exhaust_body_closed_witness :
    ∃ r, (doRequestWithRetry (NewClient "k" "https://u") transport503).1 = .response r ∧
      r.bodyClosed = true :=
  retry_exhaust_body_closed _ _ (by decide)
    (fun _ => ⟨freshResponse 503 "503 Service Unavailable", rfl, by decide⟩)

/-! ### Claims about the list operation and request bodies -/

/-- C1: a 200-status list page whose body decodes neither as the wrapped
`{"data":[...]}` shape nor as a bare list makes the list operation return
the format-mismatch error and no records. -/
theorem list_format_mismatch (server : String → FetchOutcome) (fuel : Nat) (url : String)
    (acc : List Record) (body : Body) (link : String)
    (hresp : server url = .resp 200 body link)
    (hw : decodeWrapped body = none) (hd : decodeDirect body = none) :
    getSitesLoop server (fuel + 1) url acc =
      some (⟨none, some "response doesn't match expected formats (wrapped or direct array)"⟩,
        [url]) := by
  have hp : pageDecode body = none := by
    unfold pageDecode
    rw [hw, hd]
  simp [getSitesLoop, hresp, hp]

/-- Witness for C1 with the body `true`. -/
theorem list_format_mismatch_witness :
    getSitesLoop boolBodyServer 1 "https://s/1" [] =
      some (⟨none, some "response doesn't match expected formats (wrapped or direct array)"⟩,
        ["https://s/1"]) :=
  list_format_mismatch boolBodyServer 0 "https://s/1" [] (Body.json "true" (Json.bool true))
    "" rfl rfl rfl

/-- C5: on a page of exactly 1000 records the short-page guard does not
fire: the loop continues to the URL of a present `rel="next"` directive,
and stops with the accumulated records when no such directive exists. -/
theorem list_page_exactly_1000 (server : String → FetchOutcome) (fuel : Nat) (url : String)
    (acc cs : List Record) (body : Body) (link : String)
    (hresp : server url = .resp 200 body link)
    (hdec : pageDecode body = some cs)
    (hlen : cs.length = 1000) :
    (findNextURL (goSplitComma link) ≠ "" →
      getSitesLoop server (fuel + 1) url acc =
        (match getSitesLoop server fuel (findNextURL (goSplitComma link)) (acc ++ cs) with
         | none => none
         | some (res, trace) => some (res, url :: trace))) ∧
    (findNextURL (goSplitComma link) = "" →
      getSitesLoop server (fuel + 1) url acc = some (⟨some (acc ++ cs), none⟩, [url])) := by
  constructor
  · intro hnext
    have hlink : link ≠ "" := by
      intro hempty
      rw [hempty] at hnext
      exact hnext (by decide)
    exact getSitesLoop_continue server fuel url acc cs body link hresp hdec hlink hnext
      (by omega)
  · intro hnext
    exact getSitesLoop_stop server fuel url acc cs body link hresp hdec (Or.inr (Or.inl hnext))

/-- Witness for C5 on a 1000-record page carrying a `next` link. -/
theorem list_page_exactly_1000_witness :
    (findNextURL (goSplitComma "<https://s/2>; rel=\"next\"") ≠ "" →
      getSitesLoop split2Server (1 + 1) "https://s/1" [] =
        (match getSitesLoop split2Server 1
            (findNextURL (goSplitComma "<https://s/2>; rel=\"next\""))
            ([] ++ mkRecords 0 1000) with
         | none => none
         | some (res, trace) => some (res, "https://s/1" :: trace))) ∧
    (findNextURL (goSplitComma "<https://s/2>; rel=\"next\"") = "" →
      getSitesLoop split2Server (1 + 1) "https://s/1" [] =
        some (⟨some ([] ++ mkRecords 0 1000), none⟩, ["https://s/1"])) :=
  list_page_exactly_1000 split2Server 1 "https://s/1" [] (mkRecords 0 1000)
    (wrapData (mkItems 0 1000)) "<https://s/2>; rel=\"next\"" rfl
    (pageDecode_wrapData 0 1000) (mkRecords_length 0 1000)

/-- C9: whenever the list loop's result carries an error, the record list
is nil — records accumulated from earlier pages are never returned
alongside an error. -/
theorem list_no_partial_results (server : String → FetchOutcome) :
    ∀ (fuel : Nat) (url : String) (acc : List Record) (res : GoListResult)
      (trace : List String) (e : String),
    getSitesLoop server fuel url acc = some (res, trace) → res.error = some e →
    res.sites = none := by
  intro fuel
  induction fuel with
  | zero =>
    intro url acc res trace e h herr
    simp [getSitesLoop] at h
  | succ f ih =>
    intro url acc res trace e h herr
    unfold getSitesLoop at h
    cases hs : server url with
    | reqError e1 =>
      simp only [hs, Option.some.injEq, Prod.mk.injEq] at h
      rw [← h.1]
    | sendError e1 =>
      simp only [hs, Option.some.injEq, Prod.mk.injEq] at h
      rw [← h.1]
    | readError e1 =>
      simp only [hs, Option.some.injEq, Prod.mk.injEq] at h
      rw [← h.1]
    | resp status body link =>
      simp only [hs] at h
      by_cases h200 : status ≠ 200
      · rw [if_pos h200] at h
        simp only [Option.some.injEq, Prod.mk.injEq] at h
        rw [← h.1]
      · rw [if_neg h200] at h
        cases hdec : pageDecode body with
        | none =>
          simp only [hdec, Option.some.injEq, Prod.mk.injEq] at h
          rw [← h.1]
        | some cs =>
          simp only [hdec] at h
          by_cases hl : link = ""
          · rw [if_pos hl] at h
            simp only [Option.some.injEq, Prod.mk.injEq] at h
            rw [← h.1] at herr
            simp at herr
          · rw [if_neg hl] at h
            by_cases hn : findNextURL (goSplitComma link) = ""
            · rw [if_pos hn] at h
              simp only [Option.some.injEq, Prod.mk.injEq] at h
              rw [← h.1] at herr
              simp at herr
            · rw [if_neg hn] at h
              by_cases hlen : cs.length < 1000
              · rw [if_pos hlen] at h
                simp only [Option.some.injEq, Prod.mk.injEq] at h
                rw [← h.1] at herr
                simp at herr
              · rw [if_neg hlen] at h
                cases hrec : getSitesLoop server f (findNextURL (goSplitComma link))
                    (acc ++ cs) with
                | none =>
                  rw [hrec] at h
                  simp at h
                | some p =>
                  obtain ⟨res1, tr1⟩ := p
                  rw [hrec] at h
                  simp only [Option.some.injEq, Prod.mk.injEq] at h
                  obtain ⟨h1, -⟩ := h
                  rw [← h1] at herr ⊢
                  exact ih _ _ _ _ e hrec herr

/-- Witness for C9 at a 404 page. -/
theorem list_no_partial_results_witness :
    (GoListResult.mk none
        (some ("bad response (" ++ toString (404 : Int) ++ "): " ++ "nf"))).sites = none :=
  list_no_partial_results nf404Server 1 "https://s/1" []
    (GoListResult.mk none (some ("bad response (" ++ toString (404 : Int) ++ "): " ++ "nf")))
    ["https://s/1"] ("bad response (" ++ toString (404 : Int) ++ "): " ++ "nf") rfl rfl

/-- C6: for a final executor response, create and delete return an error
embedding the HTTP status text exactly when the status is `>= 300`, and
nil (success) when it is `< 300`. -/
theorem create_delete_status_rule (c : MerakiClient)
    (transport : Nat → Except String HttpResponse) (r : HttpResponse)
    (hresp : (doRequestWithRetry c transport).1 = .response r) :
    (r.statusCode ≥ 300 →
      CreateSecureConnectSite c transport = .err ("create failed: " ++ r.status) ∧
      DeleteSecureConnectSites c transport = .err ("delete failed: " ++ r.status)) ∧
    (r.statusCode < 300 →
      CreateSecureConnectSite c transport = .ok ∧
      DeleteSecureConnectSites c transport = .ok) := by
  have hc : CreateSecureConnectSite c transport
      = if r.statusCode ≥ 300 then .err ("create failed: " ++ r.status) else .ok := by
    unfold CreateSecureConnectSite
    rw [hresp]
  have hd : DeleteSecureConnectSites c transport
      = if r.statusCode ≥ 300 then .err ("delete failed: " ++ r.status) else .ok := by
    unfold DeleteSecureConnectSites
    rw [hresp]
  refine ⟨fun hge => ⟨?_, ?_⟩, fun hlt => ⟨?_, ?_⟩⟩
  · rw [hc, if_pos hge]
  · rw [hd, if_pos hge]
  · rw [hc, if_neg (by omega)]
  · rw [hd, if_neg (by omega)]

/-- Witness for C6 at a final 404 response. -/
theorem create_delete_status_rule_witness :
    ((404 : Int) ≥ 300 →
      CreateSecureConnectSite (NewClient "k" "https://u") transport404 =
        .err ("create failed: " ++ "404 Not Found") ∧
      DeleteSecureConnectSites (NewClient "k" "https://u") transport404 =
        .err ("delete failed: " ++ "404 Not Found")) ∧
    ((404 : Int) < 300 →
      CreateSecureConnectSite (NewClient "k" "https://u") transport404 = .ok ∧
      DeleteSecureConnectSites (NewClient "k" "https://u") transport404 = .ok) :=
  create_delete_status_rule _ _ (freshResponse 404 "404 Not Found") rfl

/-- C7: the create request body is `{"enrollments": [e]}` with exactly one
enrollment object `e`, which always carries `siteId` and `regionType`,
carries `regionId` iff the region identifier is non-empty, and carries
`regionName` iff the region name is non-empty. -/
theorem create_body_shape (siteID regionType regionID regionName : String) :
    (createRequestBody siteID regionType regionID regionName
      = Json.obj [("enrollments",
          Json.arr [Json.obj (createEnrollment siteID regionType regionID regionName)])]) ∧
    ("siteId", Json.str siteID) ∈ createEnrollment siteID regionType regionID regionName ∧
    ("regionType", Json.str regionType) ∈ createEnrollment siteID regionType regionID regionName ∧
    ((∃ v, ("regionId", v) ∈ createEnrollment siteID regionType regionID regionName) ↔
      regionID ≠ "") ∧
    ((∃ v, ("regionName", v) ∈ createEnrollment siteID regionType regionID regionName) ↔
      regionName ≠ "") := by
  refine ⟨rfl, ?_, ?_, ?_, ?_⟩ <;>
    unfold createEnrollment <;>
    by_cases hID : regionID = "" <;> by_cases hName : regionName = "" <;>
      simp [hID, hName]
